import Mathlib

/-!
Shallow embedding of the `do-not-contact` organization-resolution pipeline:
the channel selector (`contact-finder.ts`, `extractContactInfo`), the SQLite
state store (`db.ts`: `updateOrgContact`, `resetOrg`, `logAttempt`), the
per-organization pass of the `batch` CLI command (`index.ts`), the candidate
ranker (`search.ts`, `assessConfidence`) and the rate-limited dispatcher
(`search.ts`, `rateLimit`).

JavaScript strings are modeled as `List Char` (written `Str`); nullable
values as `Option`.  JavaScript truthiness on nullable strings (both `null`
and `""` are falsy, relevant for `||` and for `if (!x)`) is modeled by
`truthy` / `jsOr`.
-/

namespace DoNotContact

/-- A JavaScript string, as a list of characters. -/
abbrev Str := List Char

/-- JS truthiness of a nullable string: `null`/`undefined` and `""` are falsy. -/
def truthy : Option Str → Bool
  | none => false
  | some s => !s.isEmpty

/-- JS `a || b` on nullable strings (first operand wins when truthy). -/
def jsOr (a b : Option Str) : Option Str :=
  if truthy a then a else b

/-- `contact_type` values, from the `Organization` interface in `db.ts`. -/
inductive ContactType where
  | email
  | form
  | both
  | none
deriving DecidableEq, Repr

/-- `status` values, from the `Organization` interface in `db.ts`. -/
inductive Status where
  | pending
  | success
  | failed
  | manual
deriving DecidableEq, Repr

/-- `attempt_type` values, from the `Attempt` interface in `db.ts`. -/
inductive AttemptType where
  | search
  | contact_find
  | email
  | form
deriving DecidableEq, Repr

/-- Confidence tiers returned by `assessConfidence` in `search.ts`. -/
inductive Confidence where
  | high
  | medium
  | low
deriving DecidableEq, Repr

/-- The structured extraction result (`ContactSchema` in `contact-finder.ts`):
candidate emails, the contact-form flag, and the optional form-action URL.
(`phoneNumbers` is never consulted and is omitted.) -/
structure ExtractedContact where
  emails : List Str
  hasContactForm : Bool
  formAction : Option Str
deriving DecidableEq, Repr

/-- The `ContactInfo` record returned by `extractContactInfo`. -/
structure ContactInfo where
  orgName : Str
  contactUrl : Str
  email : Option Str
  formUrl : Option Str
  contactType : ContactType
  error : Option Str
deriving DecidableEq, Repr

/-- The fixed priority list of email local-part heads scanned by
`extractContactInfo` (`contact-finder.ts` line 63). -/
def priorityPrefixes : List Str :=
  ["info@".toList, "contact@".toList, "support@".toList, "help@".toList, "hello@".toList]

/-- `e.toLowerCase()`, character by character. -/
def lowerStr (s : Str) : Str := s.map Char.toLower

/-- Best-email selection from `extractContactInfo` (lines 60–74): for each
priority head in order, take the first candidate whose lowercase form starts
with it, breaking at the first head that matches; otherwise fall back to
`emails[0]`.  Returns `none` exactly when the candidate list is empty. -/
def bestEmail (emails : List Str) : Option Str :=
  if emails.length > 0 then
    match priorityPrefixes.findSome? (fun p => emails.find? (fun e => p.isPrefixOf (lowerStr e))) with
    | some m => some m
    | none => emails.head?
  else
    none

/-- `extractContactInfo` (`contact-finder.ts`): the `try` body applied to the
extraction collaborator's response when it succeeds, the `catch` clause when
it throws.  `formUrl` is `extracted.formAction || (hasForm ? contactUrl : null)`
with JS `||` truthiness. -/
def extractContactInfo (orgName contactUrl : Str) (res : Except Str ExtractedContact) :
    ContactInfo :=
  match res with
  | .error msg =>
    { orgName := orgName, contactUrl := contactUrl, email := Option.none,
      formUrl := Option.none, contactType := ContactType.none, error := some msg }
  | .ok extracted =>
    let hasEmail := extracted.emails.length > 0
    let hasForm := extracted.hasContactForm
    let contactType :=
      if hasEmail && hasForm then ContactType.both
      else if hasEmail then ContactType.email
      else if hasForm then ContactType.form
      else ContactType.none
    { orgName := orgName, contactUrl := contactUrl,
      email := bestEmail extracted.emails,
      formUrl := jsOr extracted.formAction (if hasForm then some contactUrl else Option.none),
      contactType := contactType, error := Option.none }

/-- One row of the `organizations` table (`db.ts`). -/
structure Organization where
  name : Str
  website : Option Str
  contact_type : Option ContactType
  contact_value : Option Str
  status : Status
  error_message : Option Str
  attempts : Nat
  last_attempt_at : Option Nat
deriving DecidableEq, Repr

/-- A freshly imported row (`importOrgs` inserts only the name; the schema
defaults supply `status = 'pending'`, `attempts = 0`, NULL elsewhere). -/
def freshOrg (name : Str) : Organization :=
  { name := name, website := Option.none, contact_type := Option.none,
    contact_value := Option.none, status := Status.pending,
    error_message := Option.none, attempts := 0, last_attempt_at := Option.none }

/-- The update payload of `updateOrgContact` (`db.ts`): optional fields are
passed to SQL as `data.x ?? null`. -/
structure UpdateData where
  website : Option Str
  contact_type : Option ContactType
  contact_value : Option Str
  status : Status
  error_message : Option Str
deriving DecidableEq, Repr

/-- `updateOrgContact` (`db.ts` lines 135–164) acting on the matched row:
`website = COALESCE(?, website)`, the other contact fields overwritten
unconditionally, `attempts = attempts + 1`, `last_attempt_at = CURRENT_TIMESTAMP`
(the timestamp is passed in as `t`). -/
def updateOrgContact (org : Organization) (data : UpdateData) (t : Nat) : Organization :=
  { org with
    website := match data.website with
      | some w => some w
      | Option.none => org.website
    contact_type := data.contact_type
    contact_value := data.contact_value
    status := data.status
    error_message := data.error_message
    attempts := org.attempts + 1
    last_attempt_at := some t }

/-- `resetOrg` (`db.ts` lines 166–174) acting on the matched row. -/
def resetOrg (org : Organization) : Organization :=
  { org with status := Status.pending, error_message := Option.none }

/-- One row of the `attempts` table as written by `logAttempt` (the fields
the specification's claims mention). -/
structure AttemptRec where
  attempt_type : AttemptType
  success : Bool
deriving DecidableEq, Repr

/-- `ContactPageResult` (`search.ts`): the stage-A collaborator response.
On every error path `contactUrl` is `null` and `error` is set. -/
structure ContactPageResult where
  websiteUrl : Option Str
  contactUrl : Option Str
  error : Option Str
deriving DecidableEq, Repr

/-- One iteration of the `batch` loop (`index.ts` lines 394–457) for a single
pending organization: stage A is the given `ContactPageResult`; stage B, the
extraction collaborator's response, is consulted only when stage A produced a
truthy `contactUrl` (`if (!searchResult.contactUrl)`).  Returns the row after
its terminal write together with the appended `Attempt` rows, in order. -/
def processOrg (org : Organization) (sr : ContactPageResult)
    (ext : Except Str ExtractedContact) (t : Nat) : Organization × List AttemptRec :=
  if truthy sr.contactUrl then
    let contactUrl := sr.contactUrl.getD []
    let contactInfo := extractContactInfo org.name contactUrl ext
    match contactInfo.error with
    | some e =>
      (updateOrgContact org
        { website := sr.websiteUrl, contact_type := some ContactType.none,
          contact_value := Option.none, status := Status.failed,
          error_message := some e } t,
       [{ attempt_type := AttemptType.search, success := true },
        { attempt_type := AttemptType.contact_find, success := false }])
    | Option.none =>
      let contactValue := jsOr contactInfo.email contactInfo.formUrl
      let status := if contactInfo.contactType = ContactType.none
        then Status.manual else Status.success
      (updateOrgContact org
        { website := sr.websiteUrl, contact_type := some contactInfo.contactType,
          contact_value := contactValue, status := status,
          error_message := Option.none } t,
       [{ attempt_type := AttemptType.search, success := true },
        { attempt_type := AttemptType.contact_find, success := decide (status = Status.success) }])
  else
    (updateOrgContact org
      { website := Option.none, contact_type := some ContactType.none,
        contact_value := Option.none, status := Status.failed,
        error_message := sr.error } t,
     [{ attempt_type := AttemptType.search, success := false }])

/-- JS `haystack.includes(needle)`: substring containment. -/
def listIncludes (needle : Str) : Str → Bool
  | [] => needle.isEmpty
  | c :: rest => needle.isPrefixOf (c :: rest) || listIncludes needle rest

/-- `orgName.toLowerCase().split(/\s+/)`: split a (lowercased) string at runs
of whitespace.  Runs of separators produce empty pieces here where the JS
regex collapses them, but every such piece has length 0 and is removed by the
length filter in `assessConfidence`, so the two agree after filtering. -/
def splitWs : Str → List Str
  | [] => [[]]
  | c :: rest =>
    let r := splitWs rest
    if c.isWhitespace then [] :: r
    else (c :: r.headI) :: r.tail

/-- `assessConfidence` (`search.ts` lines 117–136).  The JS computes
`matchRatio = matching.length / nameWords.length` as a float and compares it
with `>= 0.7` / `>= 0.4`; for the ratios of small naturals that arise this
coincides with the exact comparisons `10*m ≥ 7*n` / `10*m ≥ 4*n`, and when
`nameWords` is empty the JS ratio is `NaN`, whose comparisons are all false —
modeled by the `n ≠ 0` guards. -/
def assessConfidence (orgName title url : Str) : Confidence :=
  let nameWords := (splitWs (lowerStr orgName)).filter (fun w => w.length > 2)
  let titleLower := lowerStr title
  let urlLower := lowerStr url
  let matchingWords := nameWords.filter
    (fun word => listIncludes word titleLower || listIncludes word urlLower)
  if nameWords.length ≠ 0 ∧ 10 * matchingWords.length ≥ 7 * nameWords.length then
    Confidence.high
  else if nameWords.length ≠ 0 ∧ 10 * matchingWords.length ≥ 4 * nameWords.length then
    Confidence.medium
  else
    Confidence.low

/-- `minDelayMs` of the `BraveSearch` client (`search.ts` line 37). -/
def minDelayMs : Nat := 1100

/-- `rateLimit` (`search.ts` lines 43–52) as a timing function: given the
shared `lastRequestTime` stamp and the instant `now` at which a call is
issued, the instant at which the call actually executes (and which is then
stored as the new `lastRequestTime`).  `setTimeout(minDelayMs - elapsed)` is
modeled as waking exactly after the deficit; natural-number truncation of
`now - last` agrees with the JS arithmetic because a negative elapsed time
also leads to execution at `last + minDelayMs`. -/
def rateLimit (lastRequestTime now : Nat) : Nat :=
  if now - lastRequestTime < minDelayMs then lastRequestTime + minDelayMs else now

/-! Specification-side definitions, written from the specification's words,
to be compared with the embedded code. -/

/-- The §3 invariant exactly as the specification states it: `contact_value`
is non-null iff `contact_type` is not `'none'`, and `status = 'success'`
implies `contact_type` is not `'none'` and `contact_value` is non-null. -/
def orgInvariant (o : Organization) : Prop :=
  (o.contact_value ≠ Option.none ↔ o.contact_type ≠ some ContactType.none) ∧
  (o.status = Status.success →
    o.contact_type ≠ some ContactType.none ∧ o.contact_value ≠ Option.none)

instance (o : Organization) : Decidable (orgInvariant o) := by
  unfold orgInvariant; infer_instance

/-- Well-formedness of an extraction-collaborator response: no candidate
email is the empty string, and a non-empty `formAction` is only reported
together with `hasContactForm = true`.  (The spec's invariant claim fails on
the code without this assumption; see the counterexample.) -/
def extractionWF : Except Str ExtractedContact → Bool
  | .error _ => true
  | .ok e =>
    e.emails.all (fun s => !s.isEmpty) &&
      (match e.formAction with
       | some u => u.isEmpty || e.hasContactForm
       | Option.none => true)

/-- The §4.2 channel table as the specification words it: `both` iff an email
is present and the form flag is true, `email` iff an email is present and no
form, `form` iff the form flag is true and no email, else `none`. -/
def contactTypeTable (hasEmail hasForm : Bool) : ContactType :=
  match hasEmail, hasForm with
  | true, true => ContactType.both
  | true, false => ContactType.email
  | false, true => ContactType.form
  | false, false => ContactType.none

/-- Best-email selection as the specification words it: check the priority
heads in order across all candidates, return the first candidate matching the
highest-priority head that matches anything; if no candidate matches any
head, the first candidate in original order. -/
def bestEmailSpec (emails : List Str) : Option Str :=
  match emails with
  | [] => Option.none
  | e0 :: _ =>
    some ((priorityPrefixes.findSome?
      (fun p => emails.find? (fun e => p.isPrefixOf (lowerStr e)))).getD e0)

/-- `formUrl` as the specification words it: the explicitly extracted
form-action URL when one is supplied; otherwise the contact page URL when a
form is known to exist; otherwise null. -/
def formUrlClaim (e : ExtractedContact) (contactUrl : Str) : Option Str :=
  match e.formAction with
  | some u => some u
  | Option.none => if e.hasContactForm then some contactUrl else Option.none

/-! Helper lemmas. -/

/-- A truthy nullable string is not `null`. -/
theorem truthy_ne_none {a : Option Str} (h : truthy a = true) : a ≠ Option.none := by
  cases a with
  | none => simp [truthy] at h
  | some s => simp

/-- `a || b` is `null` iff `a` is falsy and `b` is `null`. -/
theorem jsOr_eq_none {a b : Option Str} :
    jsOr a b = Option.none ↔ truthy a = false ∧ b = Option.none := by
  unfold jsOr
  by_cases h : truthy a = true
  · simp [h, truthy_ne_none h]
  · simp at h
    simp [h]

/-- A hit of the nested priority scan is one of the candidates. -/
theorem findSome?_find?_mem {m : Str} {es : List Str} (ps : List Str) (f : Str → Str → Bool)
    (h : ps.findSome? (fun p => es.find? (f p)) = some m) : m ∈ es := by
  induction ps with
  | nil => simp [List.findSome?] at h
  | cons p rest ih =>
    rw [List.findSome?_cons] at h
    cases hf : es.find? (f p) with
    | none => rw [hf] at h; exact ih h
    | some x =>
      rw [hf] at h
      cases h
      exact List.mem_of_find?_eq_some hf

/-- The selected best email is one of the candidates. -/
theorem bestEmail_mem {emails : List Str} {m : Str} (h : bestEmail emails = some m) :
    m ∈ emails := by
  unfold bestEmail at h
  split at h
  · split at h
    next x hfs =>
      cases h
      exact findSome?_find?_mem priorityPrefixes _ hfs
    next =>
      cases emails with
      | nil => simp at h
      | cons e0 rest =>
        simp [List.head?] at h
        simp [h]
  · simp at h

/-- `bestEmail` finds something exactly on a non-empty candidate list. -/
theorem bestEmail_isSome_of_ne_nil {emails : List Str} (h : emails ≠ []) :
    ∃ m, bestEmail emails = some m := by
  unfold bestEmail
  have hl : emails.length > 0 := List.length_pos.mpr h
  simp only [hl, if_true]
  split
  next x _ => exact ⟨x, rfl⟩
  next =>
    cases emails with
    | nil => simp at h
    | cons e0 rest => exact ⟨e0, rfl⟩

/-! Claim theorems. -/

/-- Claim C4: for every extraction result, the Channel Selector's
`contactType` is a pure function of the pair (emails list non-empty, hasForm
flag) matching the §4.2 table: `both` iff an email is present and the form
flag is true, `email` iff an email is present and the form flag is false,
`form` iff the form flag is true and no email is present, `none` otherwise. -/
theorem contactType_pure_table (orgName contactUrl : Str) (e : ExtractedContact) :
    (extractContactInfo orgName contactUrl (.ok e)).contactType =
      contactTypeTable (!e.emails.isEmpty) e.hasContactForm := by
  cases hes : e.emails <;> cases hf : e.hasContactForm <;>
    simp [extractContactInfo, contactTypeTable, hes, hf]

/-- Claim C5: for every non-empty candidate email list, best-email selection
scans the priority heads `["info@","contact@","support@","help@","hello@"]`
in order, returns the first candidate matching the highest-priority matching
head case-insensitively, and falls back to the first candidate in original
order when no candidate matches any head; a deterministic function of the
candidate list (stated as equality with the specification-side selector). -/
theorem bestEmail_spec_eq (emails : List Str) (h : emails ≠ []) :
    bestEmail emails = bestEmailSpec emails := by
  cases emails with
  | nil => exact absurd rfl h
  | cons e0 rest =>
    unfold bestEmail bestEmailSpec
    simp only [List.length_cons, Nat.succ_pos, if_true, gt_iff_lt]
    split
    next x hfs => simp [hfs]
    next hfs => simp [hfs]

/-- Witness for C5: the specification's two concrete examples, through
`bestEmail_spec_eq` — a priority head wins regardless of list order, and with
no matching head the first candidate in original order is chosen. -/
theorem bestEmail_spec_eq_witness :
    (["jane@org.org".toList, "info@org.org".toList] : List Str) ≠ [] ∧
    bestEmail ["jane@org.org".toList, "info@org.org".toList] = some "info@org.org".toList ∧
    bestEmail ["jane@org.org".toList, "bob@org.org".toList] = some "jane@org.org".toList := by
  refine ⟨by decide, ?_, ?_⟩
  · rw [bestEmail_spec_eq ["jane@org.org".toList, "info@org.org".toList] (by decide)]
    decide
  · rw [bestEmail_spec_eq ["jane@org.org".toList, "bob@org.org".toList] (by decide)]
    decide

/-- Claim C7: every `recordOutcome` (`updateOrgContact`) call overwrites the
stored website only when a non-null value is supplied (COALESCE semantics: a
null/omitted website leaves the stored website unchanged), increments
`attempts` by exactly one, and stamps `last_attempt_at`. -/
theorem updateOrgContact_coalesce_attempts (org : Organization) (data : UpdateData) (t : Nat) :
    (updateOrgContact org data t).website =
      (match data.website with
       | some w => some w
       | Option.none => org.website) ∧
    (updateOrgContact org data t).attempts = org.attempts + 1 ∧
    (updateOrgContact org data t).last_attempt_at = some t :=
  ⟨rfl, rfl, rfl⟩

/-- Claim C10: two successive calls through the rate-limited dispatcher with
zero elapsed time between them are separated by (exactly, hence at least) the
configured minimum delay of 1100 ms: the first call issued at `now` executes
at `rateLimit lastRequestTime now`, which becomes the new stamp; a second
call issued at that very instant executes a full `minDelayMs` later. -/
theorem rateLimit_minimum_spacing (lastRequestTime now : Nat) :
    rateLimit (rateLimit lastRequestTime now) (rateLimit lastRequestTime now) =
      rateLimit lastRequestTime now + minDelayMs := by
  unfold rateLimit
  simp [minDelayMs]

/-- Claim C2: for a pending organization whose stage-A contact-page search
returned no usable result or an error, the batch pass writes
`status = 'failed'` with the error recorded, appends exactly one
Attempt(`search`, success = false), increments `attempts` to 1 for a freshly
imported organization, and the pass's outcome does not depend on the stage-B
collaborator at all (no stage-B extraction is performed). -/
theorem searchFail_terminal_write (org : Organization) (sr : ContactPageResult)
    (ext : Except Str ExtractedContact) (t : Nat)
    (hpending : org.status = Status.pending)
    (hfail : truthy sr.contactUrl = false)
    (hfresh : org.attempts = 0) :
    (processOrg org sr ext t).1.status = Status.failed ∧
    (processOrg org sr ext t).1.error_message = sr.error ∧
    (processOrg org sr ext t).1.attempts = 1 ∧
    (processOrg org sr ext t).2 =
      [{ attempt_type := AttemptType.search, success := false }] ∧
    ∀ ext', processOrg org sr ext' t = processOrg org sr ext t := by
  refine ⟨?_, ?_, ?_, ?_, ?_⟩ <;>
    simp [processOrg, hfail, updateOrgContact, hfresh]

/-- Witness for C2: a freshly imported "Acme Org" whose contact-page search
reports "No results found". -/
theorem searchFail_terminal_write_witness :
    (freshOrg "Acme Org".toList).status = Status.pending ∧
    truthy (ContactPageResult.mk Option.none Option.none (some "No results found".toList)).contactUrl
      = false ∧
    (freshOrg "Acme Org".toList).attempts = 0 ∧
    (processOrg (freshOrg "Acme Org".toList)
        (ContactPageResult.mk Option.none Option.none (some "No results found".toList))
        (.error [] ) 0).1.status = Status.failed ∧
    (processOrg (freshOrg "Acme Org".toList)
        (ContactPageResult.mk Option.none Option.none (some "No results found".toList))
        (.error [] ) 0).1.attempts = 1 := by
  refine ⟨by decide, by decide, by decide, ?_, ?_⟩
  · exact (searchFail_terminal_write (freshOrg "Acme Org".toList)
      (ContactPageResult.mk Option.none Option.none (some "No results found".toList))
      (.error []) 0 (by decide) (by decide) (by decide)).1
  · exact (searchFail_terminal_write (freshOrg "Acme Org".toList)
      (ContactPageResult.mk Option.none Option.none (some "No results found".toList))
      (.error []) 0 (by decide) (by decide) (by decide)).2.2.1

/-- Claim C9: `updateOrgContact` overwrites `contact_type`, `contact_value`
and `error_message` unconditionally with the supplied values (null when
omitted) — only `website` has COALESCE protection — so for an organization
holding a previously discovered contact channel, a pass after a reset that
terminates in `failed` (stage-A search yields nothing usable) sets
`contact_type` to `'none'` and `contact_value` to null, erasing the cached
channel. -/
theorem updateOrgContact_overwrites_unconditionally (org : Organization) (data : UpdateData)
    (t : Nat) (sr : ContactPageResult) (ext : Except Str ExtractedContact) (v : Str)
    (hv : org.contact_value = some v) (hfail : truthy sr.contactUrl = false) :
    (updateOrgContact org data t).contact_type = data.contact_type ∧
    (updateOrgContact org data t).contact_value = data.contact_value ∧
    (updateOrgContact org data t).error_message = data.error_message ∧
    (processOrg (resetOrg org) sr ext t).1.contact_type = some ContactType.none ∧
    (processOrg (resetOrg org) sr ext t).1.contact_value = Option.none := by
  refine ⟨rfl, rfl, rfl, ?_, ?_⟩ <;>
    simp [processOrg, hfail, updateOrgContact, resetOrg]

/-- Witness for C9: an organization that had found `info@acme.org` is reset
and then fails its next pass; the cached channel is erased. -/
theorem updateOrgContact_overwrites_unconditionally_witness :
    ({ freshOrg "Acme Org".toList with
        contact_type := some ContactType.email,
        contact_value := some "info@acme.org".toList,
        status := Status.success } : Organization).contact_value
      = some "info@acme.org".toList ∧
    truthy (ContactPageResult.mk Option.none Option.none
        (some "No results found".toList)).contactUrl = false ∧
    (processOrg (resetOrg { freshOrg "Acme Org".toList with
        contact_type := some ContactType.email,
        contact_value := some "info@acme.org".toList,
        status := Status.success })
      (ContactPageResult.mk Option.none Option.none (some "No results found".toList))
      (.error []) 7).1.contact_value = Option.none := by
  refine ⟨by decide, by decide, ?_⟩
  exact (updateOrgContact_overwrites_unconditionally
    { freshOrg "Acme Org".toList with
        contact_type := some ContactType.email,
        contact_value := some "info@acme.org".toList,
        status := Status.success }
    { website := Option.none, contact_type := Option.none, contact_value := Option.none,
      status := Status.pending, error_message := Option.none } 7
    (ContactPageResult.mk Option.none Option.none (some "No results found".toList))
    (.error []) "info@acme.org".toList (by decide) (by decide)).2.2.2.2

/-- When stage A produced a truthy contact URL and stage B returned without
throwing, the pass performs the stage-B terminal write of `index.ts` lines
427–457. -/
theorem processOrg_ok_fst (org : Organization) (sr : ContactPageResult) (e : ExtractedContact)
    (t : Nat) (hcu : truthy sr.contactUrl = true) :
    processOrg org sr (.ok e) t =
      (updateOrgContact org
        { website := sr.websiteUrl,
          contact_type :=
            some (extractContactInfo org.name (sr.contactUrl.getD []) (.ok e)).contactType,
          contact_value :=
            jsOr (extractContactInfo org.name (sr.contactUrl.getD []) (.ok e)).email
              (extractContactInfo org.name (sr.contactUrl.getD []) (.ok e)).formUrl,
          status :=
            if (extractContactInfo org.name (sr.contactUrl.getD []) (.ok e)).contactType
                = ContactType.none
              then Status.manual else Status.success,
          error_message := Option.none } t,
       [{ attempt_type := AttemptType.search, success := true },
        { attempt_type := AttemptType.contact_find,
          success :=
            decide ((if (extractContactInfo org.name (sr.contactUrl.getD []) (.ok e)).contactType
                = ContactType.none
              then Status.manual else Status.success) = Status.success) }]) := by
  simp [processOrg, hcu, extractContactInfo]

/-- Claim C3: for every organization whose stage-B extraction completes
without error: if the selected `contactType` is `'none'` the terminal status
written is `'manual'`; if it is not `'none'` the terminal status written is
`'success'`, with `contactType`, `contactValue` and `website` persisted and
an Attempt(`contact_find`, success = true) appended after the stage-A
Attempt(`search`, success = true). -/
theorem extraction_ok_terminal_write (org : Organization) (sr : ContactPageResult)
    (e : ExtractedContact) (t : Nat) (hcu : truthy sr.contactUrl = true) :
    ((extractContactInfo org.name (sr.contactUrl.getD []) (.ok e)).contactType
        = ContactType.none →
      (processOrg org sr (.ok e) t).1.status = Status.manual ∧
      (processOrg org sr (.ok e) t).1.contact_type = some ContactType.none) ∧
    ((extractContactInfo org.name (sr.contactUrl.getD []) (.ok e)).contactType
        ≠ ContactType.none →
      (processOrg org sr (.ok e) t).1.status = Status.success ∧
      (processOrg org sr (.ok e) t).1.contact_type =
        some (extractContactInfo org.name (sr.contactUrl.getD []) (.ok e)).contactType ∧
      (processOrg org sr (.ok e) t).1.contact_value =
        jsOr (extractContactInfo org.name (sr.contactUrl.getD []) (.ok e)).email
          (extractContactInfo org.name (sr.contactUrl.getD []) (.ok e)).formUrl ∧
      (processOrg org sr (.ok e) t).1.website =
        (match sr.websiteUrl with
         | some w => some w
         | Option.none => org.website) ∧
      (processOrg org sr (.ok e) t).2 =
        [{ attempt_type := AttemptType.search, success := true },
         { attempt_type := AttemptType.contact_find, success := true }]) := by
  rw [processOrg_ok_fst org sr e t hcu]
  constructor
  · intro hnone
    simp [updateOrgContact, hnone]
  · intro hne
    simp [updateOrgContact, hne]

/-- Witness for C3: both outcomes at concrete inputs — an extraction with an
email gives `success` with the channel persisted; an extraction with
`emails = [] , hasForm = false` gives `manual` with `contactType = 'none'`. -/
theorem extraction_ok_terminal_write_witness :
    truthy (ContactPageResult.mk (some "https://acme.org".toList)
        (some "https://acme.org/contact".toList) Option.none).contactUrl = true ∧
    (processOrg (freshOrg "Acme Org".toList)
        (ContactPageResult.mk (some "https://acme.org".toList)
          (some "https://acme.org/contact".toList) Option.none)
        (.ok { emails := ["info@acme.org".toList], hasContactForm := false,
               formAction := Option.none }) 2).1.status = Status.success ∧
    (processOrg (freshOrg "Acme Org".toList)
        (ContactPageResult.mk (some "https://acme.org".toList)
          (some "https://acme.org/contact".toList) Option.none)
        (.ok { emails := ["info@acme.org".toList], hasContactForm := false,
               formAction := Option.none }) 2).1.contact_value
      = some "info@acme.org".toList ∧
    (processOrg (freshOrg "Acme Org".toList)
        (ContactPageResult.mk (some "https://acme.org".toList)
          (some "https://acme.org/contact".toList) Option.none)
        (.ok { emails := [], hasContactForm := false, formAction := Option.none }) 2).1.status
      = Status.manual := by
  refine ⟨by decide, ?_, ?_, ?_⟩
  · exact ((extraction_ok_terminal_write (freshOrg "Acme Org".toList)
      (ContactPageResult.mk (some "https://acme.org".toList)
        (some "https://acme.org/contact".toList) Option.none)
      { emails := ["info@acme.org".toList], hasContactForm := false,
        formAction := Option.none } 2 (by decide)).2 (by decide)).1
  · have h := ((extraction_ok_terminal_write (freshOrg "Acme Org".toList)
      (ContactPageResult.mk (some "https://acme.org".toList)
        (some "https://acme.org/contact".toList) Option.none)
      { emails := ["info@acme.org".toList], hasContactForm := false,
        formAction := Option.none } 2 (by decide)).2 (by decide)).2.2.1
    rw [h]; decide
  · exact ((extraction_ok_terminal_write (freshOrg "Acme Org".toList)
      (ContactPageResult.mk (some "https://acme.org".toList)
        (some "https://acme.org/contact".toList) Option.none)
      { emails := [], hasContactForm := false, formAction := Option.none } 2 (by decide)).1
        (by decide)).1

/-- Counterexample for C6: when the extractor supplies an *empty-string*
form-action URL (`formAction = ""`, a supplied value), JS `||` treats it as
falsy and the code falls back to the contact page URL, while the claim says
the supplied form-action URL is selected. -/
theorem formUrl_claim_counterexample :
    (extractContactInfo "Acme Org".toList "https://acme.org/contact".toList
        (.ok { emails := [], hasContactForm := true, formAction := some [] })).formUrl ≠
      formUrlClaim { emails := [], hasContactForm := true, formAction := some [] }
        "https://acme.org/contact".toList := by decide

/-- Claim C6 (amended): the selected `formUrl` is the explicitly extracted
form-action URL when a *non-empty* one is supplied; otherwise (absent or
empty), when the form flag is true, it is the contact page URL itself, and
otherwise null.  In particular, for an extraction with `emails = []`,
`hasForm = true`, `formAction = null` after a successful stage A, the
persisted outcome is `status = 'success'`, `contactType = 'form'`,
`contactValue` equal to the contact page URL. -/
theorem formUrl_fallback (orgName contactUrl : Str) (e : ExtractedContact)
    (org : Organization) (sr : ContactPageResult) (t : Nat) (cu : Str)
    (hcu : sr.contactUrl = some cu) (hne : cu ≠ []) :
    ((extractContactInfo orgName contactUrl (.ok e)).formUrl =
      match e.formAction with
      | some u =>
        if u.isEmpty then (if e.hasContactForm then some contactUrl else Option.none)
        else some u
      | Option.none => if e.hasContactForm then some contactUrl else Option.none) ∧
    (processOrg org sr
        (.ok { emails := [], hasContactForm := true, formAction := Option.none }) t).1.status
      = Status.success ∧
    (processOrg org sr
        (.ok { emails := [], hasContactForm := true, formAction := Option.none }) t).1.contact_type
      = some ContactType.form ∧
    (processOrg org sr
        (.ok { emails := [], hasContactForm := true, formAction := Option.none }) t).1.contact_value
      = some cu := by
  have hcut : truthy sr.contactUrl = true := by
    rw [hcu]
    simp [truthy, hne]
  constructor
  · cases hfa : e.formAction with
    | none => simp [extractContactInfo, jsOr, truthy, hfa]
    | some u =>
      by_cases hu : u.isEmpty <;>
        simp [extractContactInfo, jsOr, truthy, hfa, hu]
  · rw [processOrg_ok_fst org sr _ t hcut]
    have hget : sr.contactUrl.getD [] = cu := by rw [hcu]; rfl
    refine ⟨?_, ?_, ?_⟩ <;>
      simp [updateOrgContact, extractContactInfo, bestEmail, jsOr, truthy, hget]

/-- Witness for C6: the specification's end-to-end example — stage A finds
`https://acme.org/contact`, stage B reports only a form with no explicit
action URL; the persisted outcome is `success`/`form` with the contact page
URL as the value, and the formUrl equation evaluated at that extraction. -/
theorem formUrl_fallback_witness :
    (ContactPageResult.mk (some "https://acme.org".toList)
        (some "https://acme.org/contact".toList) Option.none).contactUrl
      = some "https://acme.org/contact".toList ∧
    "https://acme.org/contact".toList ≠ ([] : Str) ∧
    (extractContactInfo "Acme Org".toList "https://acme.org/contact".toList
        (.ok { emails := [], hasContactForm := true, formAction := Option.none })).formUrl
      = some "https://acme.org/contact".toList ∧
    (processOrg (freshOrg "Acme Org".toList)
        (ContactPageResult.mk (some "https://acme.org".toList)
          (some "https://acme.org/contact".toList) Option.none)
        (.ok { emails := [], hasContactForm := true, formAction := Option.none }) 3).1.status
      = Status.success ∧
    (processOrg (freshOrg "Acme Org".toList)
        (ContactPageResult.mk (some "https://acme.org".toList)
          (some "https://acme.org/contact".toList) Option.none)
        (.ok { emails := [], hasContactForm := true, formAction := Option.none }) 3).1.contact_type
      = some ContactType.form ∧
    (processOrg (freshOrg "Acme Org".toList)
        (ContactPageResult.mk (some "https://acme.org".toList)
          (some "https://acme.org/contact".toList) Option.none)
        (.ok { emails := [], hasContactForm := true, formAction := Option.none }) 3).1.contact_value
      = some "https://acme.org/contact".toList := by
  have h := formUrl_fallback "Acme Org".toList "https://acme.org/contact".toList
    { emails := [], hasContactForm := true, formAction := Option.none }
    (freshOrg "Acme Org".toList)
    (ContactPageResult.mk (some "https://acme.org".toList)
      (some "https://acme.org/contact".toList) Option.none)
    3 "https://acme.org/contact".toList rfl (by decide)
  refine ⟨rfl, by decide, ?_, h.2.1, h.2.2.1, h.2.2.2⟩
  rw [h.1]
  decide

/-- Counterexample for C1: a terminal write violating the claimed invariant.
The extraction collaborator reports no emails and no contact form but a
form-action URL; the code then persists `contact_type = 'none'` together with
a non-null `contact_value` (the form-action URL), refuting the "only if"
direction of the claimed equivalence. -/
theorem terminal_write_invariant_counterexample :
    ¬ orgInvariant (processOrg (freshOrg "Acme Org".toList)
        (ContactPageResult.mk (some "https://acme.org".toList)
          (some "https://acme.org/contact".toList) Option.none)
        (.ok { emails := [], hasContactForm := false,
               formAction := some "https://acme.org/form".toList }) 5).1 := by decide

/-- Claim C1 (amended): for every terminal write of the pipeline whose
stage-B extraction result is well-formed — no empty-string candidate email,
and a non-empty `formAction` only together with `hasContactForm = true` —
the written record satisfies the invariant: `contact_value` is non-null iff
`contact_type ≠ 'none'`, and `status = 'success'` implies
`contact_type ≠ 'none'` and `contact_value` non-null. -/
theorem terminal_write_invariant (org : Organization) (sr : ContactPageResult)
    (ext : Except Str ExtractedContact) (t : Nat) (hwf : extractionWF ext = true) :
    orgInvariant (processOrg org sr ext t).1 := by
  by_cases hcu : truthy sr.contactUrl = true
  · cases ext with
    | error msg =>
      simp [processOrg, hcu, extractContactInfo, updateOrgContact, orgInvariant]
    | ok e =>
      rw [processOrg_ok_fst org sr e t hcu]
      obtain ⟨emails, hasForm, formAction⟩ := e
      simp only [extractionWF, Bool.and_eq_true, List.all_eq_true] at hwf
      obtain ⟨hemails, hfa⟩ := hwf
      cases hes : emails with
      | nil =>
        cases hasForm with
        | true =>
          -- contactType = form; contact_value = formAction || contactUrl, never null
          have hval : jsOr Option.none
              (jsOr formAction (some (sr.contactUrl.getD []))) ≠ Option.none := by
            rw [Ne, jsOr_eq_none, jsOr_eq_none]
            rintro ⟨-, -, h⟩
            exact Option.noConfusion h
          simp [extractContactInfo, updateOrgContact, orgInvariant, bestEmail, hval]
        | false =>
          -- contactType = none; well-formedness forces a null contact_value
          have hval : jsOr Option.none (jsOr formAction Option.none) = Option.none := by
            rw [jsOr_eq_none, jsOr_eq_none]
            refine ⟨rfl, ?_, rfl⟩
            cases formAction with
            | none => rfl
            | some u =>
              subst hes
              simp only [Bool.or_eq_true] at hfa
              rcases hfa with hu | hu
              · simp [truthy, hu]
              · exact absurd hu (by simp)
          simp [extractContactInfo, updateOrgContact, orgInvariant, bestEmail, hval]
      | cons e0 rest =>
        -- an email is present: bestEmail picks a candidate, non-empty by WF
        subst hes
        obtain ⟨m, hm⟩ := bestEmail_isSome_of_ne_nil (List.cons_ne_nil e0 rest)
        have hmem : m ∈ e0 :: rest := bestEmail_mem hm
        have hmne : m.isEmpty = false := by
          have := hemails m hmem
          simpa using this
        cases hasForm with
        | true =>
          have hval : jsOr (bestEmail (e0 :: rest))
              (jsOr formAction (some (sr.contactUrl.getD []))) = some m := by
            rw [hm]
            unfold jsOr
            simp [truthy, hmne]
          simp [extractContactInfo, updateOrgContact, orgInvariant, hval]
        | false =>
          have hval : jsOr (bestEmail (e0 :: rest))
              (jsOr formAction Option.none) = some m := by
            rw [hm]
            unfold jsOr
            simp [truthy, hmne]
          simp [extractContactInfo, updateOrgContact, orgInvariant, hval]
  · simp only [Bool.not_eq_true] at hcu
    simp [processOrg, hcu, updateOrgContact, orgInvariant]

/-- Witness for C1: a well-formed extraction (one ordinary email, no form)
processed after a successful stage A; the written record satisfies the
invariant. -/
theorem terminal_write_invariant_witness :
    extractionWF
      (.ok (ExtractedContact.mk ["info@acme.org".toList] false Option.none)) = true ∧
    orgInvariant (processOrg (freshOrg "Acme Org".toList)
        (ContactPageResult.mk (some "https://acme.org".toList)
          (some "https://acme.org/contact".toList) Option.none)
        (.ok (ExtractedContact.mk ["info@acme.org".toList] false Option.none)) 4).1 :=
  ⟨by decide, terminal_write_invariant (freshOrg "Acme Org".toList)
    (ContactPageResult.mk (some "https://acme.org".toList)
      (some "https://acme.org/contact".toList) Option.none)
    (.ok (ExtractedContact.mk ["info@acme.org".toList] false Option.none)) 4 (by decide)⟩

/-- Lowercasing a character does not change whether it is whitespace. -/
theorem isWhitespace_toLower (c : Char) : (Char.toLower c).isWhitespace = c.isWhitespace := by
  unfold Char.toLower
  show (if c.toNat ≥ 65 ∧ c.toNat ≤ 90 then Char.ofNat (c.toNat + 32) else c).isWhitespace
    = c.isWhitespace
  split
  next h =>
    obtain ⟨h65, h90⟩ := h
    have hc : c.isWhitespace = false := by
      unfold Char.isWhitespace
      simp only [Bool.or_eq_false_iff, decide_eq_false_iff_not]
      refine ⟨⟨⟨?_, ?_⟩, ?_⟩, ?_⟩ <;> intro hEq <;> subst hEq <;>
        revert h65 <;> decide
    rw [hc]
    have hb1 : 97 ≤ c.toNat + 32 := by omega
    have hb2 : c.toNat + 32 ≤ 122 := by omega
    generalize c.toNat + 32 = m at hb1 hb2 ⊢
    interval_cases m <;> decide
  next => rfl

/-- Lowercasing the empty string. -/
theorem lowerStr_nil : lowerStr [] = [] := rfl

/-- Lowercasing a cons. -/
theorem lowerStr_cons (c : Char) (s : Str) :
    lowerStr (c :: s) = Char.toLower c :: lowerStr s := rfl

/-- `headI` through `lowerStr`-mapping (the default `[]` is a fixed point). -/
theorem headI_map_lowerStr (l : List Str) : (l.map lowerStr).headI = lowerStr l.headI := by
  cases l <;> rfl

/-- `tail` commutes with mapping. -/
theorem tail_map_lowerStr (l : List Str) : (l.map lowerStr).tail = l.tail.map lowerStr := by
  cases l <;> rfl

/-- Whitespace splitting commutes with lowercasing: `toLowerCase` then
`split(/\s+/)` yields the lowercased tokens of the original string. -/
theorem splitWs_lowerStr (s : Str) :
    splitWs (lowerStr s) = (splitWs s).map lowerStr := by
  induction s with
  | nil => simp [splitWs, lowerStr_nil]
  | cons c rest ih =>
    rw [lowerStr_cons]
    simp only [splitWs]
    rw [isWhitespace_toLower]
    by_cases hw : c.isWhitespace
    · simp [hw, ih, lowerStr_nil]
    · rw [ih, headI_map_lowerStr, tail_map_lowerStr]
      simp [hw, lowerStr_cons]

/-- Claim C8: for every organization name whose whitespace tokens are all of
length ≤ 2 (zero qualifying tokens), the Candidate Ranker returns `'low'`
for any search result: the 0/0 match-ratio case (NaN in the JS float
semantics) is handled as `'low'`, with no division failure. -/
theorem assessConfidence_low_of_short_tokens (orgName title url : Str)
    (h : ∀ w ∈ splitWs orgName, w.length ≤ 2) :
    assessConfidence orgName title url = Confidence.low := by
  unfold assessConfidence
  have hnil : ((splitWs (lowerStr orgName)).filter (fun w => w.length > 2)) = [] := by
    rw [splitWs_lowerStr, List.filter_eq_nil_iff]
    intro a ha
    simp only [List.mem_map] at ha
    obtain ⟨w, hw, rfl⟩ := ha
    have hlen := h w hw
    simp only [lowerStr, List.length_map, gt_iff_lt, decide_eq_true_eq]
    omega
  simp [hnil]

/-- Witness for C8: the name "ab cd" (every token of length 2) ranks `'low'`
against an arbitrary search result. -/
theorem assessConfidence_low_of_short_tokens_witness :
    (∀ w ∈ splitWs "ab cd".toList, w.length ≤ 2) ∧
    assessConfidence "ab cd".toList "ab cd compendium".toList "https://abcd.org".toList
      = Confidence.low :=
  ⟨by decide, assessConfidence_low_of_short_tokens "ab cd".toList
    "ab cd compendium".toList "https://abcd.org".toList (by decide)⟩

end DoNotContact
